import Mathlib

/-!
Shallow embedding of the periodic trust-attestation scheduler of the `nova`
repository (`nova/scheduler/periodic_checks.py`) together with the two REST
controllers (`nova/api/openstack/compute/periodic_checks.py`).

Python dictionaries are modelled as association lists (`List (String × α)`):
assignment to an existing key replaces the value in place, assignment to a
fresh key appends.  Python values that can hold either a boolean or a string
(the `trust_lvl` slot of a cache entry, which starts as the string
`'unknown'` but receives the `CheckThread`'s placeholder `False` when a run
does not complete) are modelled by `PyVal`.  Timestamps are seconds since
the epoch (`Nat`); `timeutils.parse_isotime("1970-01-01T00:00:00Z")` is the
epoch, i.e. `0`.
-/

/-- A Python value that can land in a cache entry's `trust_lvl` slot: either a
boolean (the `CheckThread` placeholder `False`, or an adapter result) or a
string such as `'unknown'` / `'trusted'`. -/
inductive PyVal where
  | pyBool (b : Bool)
  | pyStr (s : String)
deriving DecidableEq

/-- One entry of `self.compute_nodes`: the dictionary
`{'trust_lvl': ..., 'vtime': ...}` kept per host. -/
structure NodeTrust where
  trust_lvl : PyVal
  vtime : Nat
deriving DecidableEq

/-- A periodic-check row as returned by `db.periodic_check_get` /
`db.periodic_check_get_by_id`: identifier, unique name, description,
spacing interval (seconds) and execution timeout (seconds, `0` = no
timeout, since Python treats `0` as falsy in `if check['timeout']:`). -/
structure Check where
  id : Nat
  name : String
  desc : String
  spacing : Int
  timeout : Nat
deriving DecidableEq

/-- The dictionary stored by `db.periodic_check_results_store`: one
`(check, node, time)` execution record. -/
structure CheckResult where
  check_id : Nat
  check_name : String
  time : Nat
  node : String
  result : PyVal
  status : String
deriving DecidableEq

/-- Behaviour of one call `adapter_instance.is_trusted(host, 'trusted')`
executed inside the `CheckThread`: it completes after `t` seconds returning
the pair `(result, status)`, it raises an internal fault (the thread dies,
leaving the thread's placeholder fields untouched), or it hangs forever. -/
inductive AdapterOutcome where
  | completes (t : Nat) (result : PyVal) (status : String)
  | raises
  | hangs
deriving DecidableEq

/-- An adapter class from `self.adapter_list`: its name (`_get_name` /
`get_name()` both resolve to the adapter's name used as the check name in
the database) and the behaviour of its `is_trusted` evaluation per host. -/
structure Adapter where
  name : String
  behavior : String → AdapterOutcome

/-- The mutable fields of the `PeriodicChecks` singleton that the scheduling
paths touch: `self.compute_nodes` (the trust cache), `self.cache_spacing`
(per-check elapsed counters), the two configuration flags
`CONF.periodic_checks.periodic_tasks_running` and the tick increment
`self.spacing = CONF.periodic_checks.spacing`.  The read-only
`self.adapter_list` and the database of check rows are passed to the
operations as explicit arguments. -/
structure PeriodicChecks where
  compute_nodes : List (String × NodeTrust)
  cache_spacing : List (String × Int)
  periodic_tasks_running : Bool
  spacing : Int
deriving DecidableEq

/-- Dictionary read: `d[k]` returns the first binding of `k`, `none` models
a `KeyError`. -/
def lookupS {α : Type} : List (String × α) → String → Option α
  | [], _ => none
  | (k', v) :: rest, k => if k' = k then some v else lookupS rest k

/-- Dictionary write `d[k] = v`: replaces the value of an existing key in
place, appends a fresh key at the end (Python dict assignment). -/
def setS {α : Type} : List (String × α) → String → α → List (String × α)
  | [], k, v => [(k, v)]
  | (k', v') :: rest, k, v =>
      if k' = k then (k, v) :: rest else (k', v') :: setS rest k v

/-- `db.periodic_check_get(context, name)`: first row whose name matches,
`None` when absent. -/
def periodic_check_get (db : List Check) (name : String) : Option Check :=
  db.find? (fun c => c.name == name)

/-- Result and status fields of the `CheckThread` once
`run_check_and_store_result` is past the `join`/`_stop` sequence.  The
thread starts with `self.status = 'timeout'` and `self.result = False`; a
successful `run` overwrites both with the pair returned by `is_trusted`.
With a truthy timeout the caller waits `join(check['timeout'])` and
force-stops a still-running thread, so a completion later than the timeout,
a fault, or a hang all leave the placeholders.  With `check['timeout'] == 0`
the caller waits `join()` forever: a hanging adapter never returns (`none`). -/
def checkThreadOutcome (outcome : AdapterOutcome) (timeout : Nat) :
    Option (PyVal × String) :=
  match outcome with
  | .completes t r s =>
      if timeout ≠ 0 then
        if t ≤ timeout then some (r, s) else some (.pyBool false, "timeout")
      else some (r, s)
  | .raises => some (.pyBool false, "timeout")
  | .hangs => if timeout ≠ 0 then some (.pyBool false, "timeout") else none

/-- `PeriodicChecks.run_check_and_store_result`: runs the adapter inside a
`CheckThread`, joins with the check's timeout, then unconditionally writes
`self.compute_nodes[host] = {'trust_lvl': check_thread.result, 'vtime':
utcnow_ts()}` and stores the result record.  `none` models an escaping
exception (`KeyError` when `host` is not a cache key) or a `join()` that
never returns. -/
def run_check_and_store_result (s : PeriodicChecks) (now : Nat) (host : String)
    (check : Check) (adapter_instance : Adapter) :
    Option (PeriodicChecks × CheckResult) :=
  match checkThreadOutcome (adapter_instance.behavior host) check.timeout with
  | none => none
  | some (result, status) =>
      match lookupS s.compute_nodes host with
      | none => none
      | some _ =>
          let record : CheckResult :=
            { check_id := check.id, check_name := check.name, time := now,
              node := host, result := result, status := status }
          let entry : NodeTrust := { trust_lvl := result, vtime := now }
          let s' : PeriodicChecks :=
            { s with compute_nodes := setS s.compute_nodes host entry }
          some (s', record)

/-- `self.is_periodic_check_enabled()`: returns the configuration flag
`CONF.periodic_checks.periodic_tasks_running`. -/
def is_periodic_check_enabled (s : PeriodicChecks) : Bool :=
  s.periodic_tasks_running

/-- The condition actually evaluated by the guards
`if self.is_periodic_check_enabled:` in `run_checks` and
`run_checks_specific_nodes`: the method is referenced without being called,
so Python tests the truthiness of the bound-method object itself, which is
always `True` whatever the flag holds. -/
def is_periodic_check_enabled_attr : Bool :=
  true

/-- Inner loop of `run_checks` for one host: `for adapter in
self.adapter_list`, look the check row up by the adapter's name, advance
that check's elapsed counter by `self.spacing`, and dispatch
`run_check_and_store_result` (then reset the counter to `0`) when the
counter has reached the check's spacing.  `none` models an escaping
exception: `check` being `None` (`TypeError` on `check['name']`) or a
missing `cache_spacing` key (`KeyError` on `+=`). -/
def runChecksAdapters (db : List Check) (now : Nat) (host : String) :
    PeriodicChecks → List Adapter → Option (PeriodicChecks × List CheckResult)
  | s, [] => some (s, [])
  | s, adapter :: rest =>
      match periodic_check_get db adapter.name with
      | none => none
      | some check =>
          match lookupS s.cache_spacing check.name with
          | none => none
          | some elapsed =>
              let bumped := setS s.cache_spacing check.name (elapsed + s.spacing)
              let s1 : PeriodicChecks := { s with cache_spacing := bumped }
              if elapsed + s.spacing ≥ check.spacing then
                match run_check_and_store_result s1 now host check adapter with
                | none => none
                | some (s2, record) =>
                    let reset := setS s2.cache_spacing check.name 0
                    let s3 : PeriodicChecks := { s2 with cache_spacing := reset }
                    match runChecksAdapters db now host s3 rest with
                    | none => none
                    | some (s4, records) => some (s4, record :: records)
              else
                match runChecksAdapters db now host s1 rest with
                | none => none
                | some (s4, records) => some (s4, records)

/-- Outer loop of `run_checks`: `for host in self.compute_nodes` (iteration
over the dictionary's keys; the body only replaces values of existing keys,
so the key list is fixed for the whole tick). -/
def runChecksHosts (db : List Check) (adapter_list : List Adapter) (now : Nat) :
    PeriodicChecks → List String → Option (PeriodicChecks × List CheckResult)
  | s, [] => some (s, [])
  | s, host :: rest =>
      match runChecksAdapters db now host s adapter_list with
      | none => none
      | some (s1, records1) =>
          match runChecksHosts db adapter_list now s1 rest with
          | none => none
          | some (s2, records2) => some (s2, records1 ++ records2)

/-- `PeriodicChecks.run_checks`, one tick of the scheduling loop.  The
source guard is `if self.is_periodic_check_enabled:` — the truthiness of the
bound method (`is_periodic_check_enabled_attr`), not of its return value —
so the body runs unconditionally. -/
def run_checks (s : PeriodicChecks) (db : List Check)
    (adapter_list : List Adapter) (now : Nat) :
    Option (PeriodicChecks × List CheckResult) :=
  if is_periodic_check_enabled_attr then
    runChecksHosts db adapter_list now s (s.compute_nodes.map Prod.fst)
  else
    some (s, [])

/-- Inner loop of `run_checks_specific_nodes` for one host: every adapter is
dispatched immediately; there is no elapsed-counter read, increment or
gate. -/
def runSpecificAdapters (db : List Check) (now : Nat) (host : String) :
    PeriodicChecks → List Adapter → Option (PeriodicChecks × List CheckResult)
  | s, [] => some (s, [])
  | s, adapter :: rest =>
      match periodic_check_get db adapter.name with
      | none => none
      | some check =>
          match run_check_and_store_result s now host check adapter with
          | none => none
          | some (s1, record) =>
              match runSpecificAdapters db now host s1 rest with
              | none => none
              | some (s2, records) => some (s2, record :: records)

/-- Outer loop of `run_checks_specific_nodes`: `for host in input_nodes`. -/
def runSpecificHosts (db : List Check) (adapter_list : List Adapter) (now : Nat) :
    PeriodicChecks → List String → Option (PeriodicChecks × List CheckResult)
  | s, [] => some (s, [])
  | s, host :: rest =>
      match runSpecificAdapters db now host s adapter_list with
      | none => none
      | some (s1, records1) =>
          match runSpecificHosts db adapter_list now s1 rest with
          | none => none
          | some (s2, records2) => some (s2, records1 ++ records2)

/-- `PeriodicChecks.run_checks_specific_nodes`: the manual run-now path over
a caller-supplied node list.  Its guard is also the truthy
`if self.is_periodic_check_enabled:` bound-method reference, so it executes
whatever the flag holds. -/
def run_checks_specific_nodes (s : PeriodicChecks) (db : List Check)
    (adapter_list : List Adapter) (now : Nat) (input_nodes : List String) :
    Option (PeriodicChecks × List CheckResult) :=
  if is_periodic_check_enabled_attr then
    runSpecificHosts db adapter_list now s input_nodes
  else
    some (s, [])

/-- The cache entry written by `PeriodicChecks._init_cache_entry`: trust
level `'unknown'` with the epoch timestamp
`parse_isotime("1970-01-01T00:00:00Z")`. -/
def initEntry : NodeTrust :=
  { trust_lvl := .pyStr "unknown", vtime := 0 }

/-- `PeriodicChecks._init_cache_entry` acting on `self.compute_nodes`. -/
def _init_cache_entry (compute_nodes : List (String × NodeTrust))
    (host : String) : List (String × NodeTrust) :=
  setS compute_nodes host initEntry

/-- `PeriodicChecks.initialize_trusted_pool`: for every compute node
returned by `db.compute_node_get_all` (here supplied as the list of its
`service['host']` fields), initialize its cache entry. -/
def initialize_trusted_pool (s : PeriodicChecks) (computes : List String) :
    PeriodicChecks :=
  { s with compute_nodes := computes.foldl _init_cache_entry s.compute_nodes }

/-- `PeriodicChecks.get_trusted_pool`: the per-node trust mapping when the
periodic flag is on, `None` otherwise. -/
def get_trusted_pool (s : PeriodicChecks) : Option (List (String × NodeTrust)) :=
  if s.periodic_tasks_running then some s.compute_nodes else none

/-!
Administrative façade: `nova/api/openstack/compute/periodic_checks.py`.
The controller delegates persistence to the `nova.db` layer, which is not
part of the source tree here; the db operations that decide the outcomes
are modelled from the spec (§4.2, §6, §7) and from the controller's own
comments, as indicated on each definition.
-/

/-- Errors raised by the persistence collaborator, matching the `nova.exception`
classes the controller catches: `Invalid` (surfaced as HTTP 400), `NotFound`
(404), `Forbidden` (403), and `Duplicate` for a name conflict. -/
inductive DbError where
  | invalid
  | notFound
  | forbidden
  | conflict
deriving DecidableEq

/-- HTTP-level outcome of a controller call: a rendered check view, one of
the `webob.exc` responses the controller raises, or an exception the
controller does not catch (propagated to the WSGI layer). -/
inductive HttpResponse where
  | okCheck (check : Check)
  | noContent
  | badRequest
  | notFound
  | forbidden
  | uncaught (e : DbError)
deriving DecidableEq

/-- Modelled from the spec: the distinguished baseline attestation check
that cannot be deleted — the controller's `except exception.Forbidden`
comment says "This exception is raised on delete of OpenAttestation check",
but the check's stored name lives in the missing `nova.db` layer. -/
def baselineCheckName : String :=
  "OpenAttestation"

/-- Modelled from the spec: `db.periodic_check_create` (the `nova.db` layer
is not under src/).  §4.2: `create(def)` fails with `InvalidArgument` if
spacing ≤ 0 and with `Conflict` if the name exists; §7: invalid input is
rejected before any mutation, so a failed create persists nothing. -/
def periodic_check_create (store : List Check) (name desc : String)
    (spacing : Int) (timeout : Nat) : Except DbError (List Check) :=
  if spacing ≤ 0 then .error .invalid
  else if store.any (fun c => c.name == name) then .error .conflict
  else .ok (store ++ [{ id := store.length, name := name, desc := desc,
                        spacing := spacing, timeout := timeout }])

/-- `db.periodic_check_get_by_id`: the row with the given id, raising
`NotFound` when absent. -/
def periodic_check_get_by_id (store : List Check) (id : Nat) :
    Except DbError Check :=
  match store.find? (fun c => c.id == id) with
  | some c => .ok c
  | none => .error .notFound

/-- Modelled from the spec: `db.periodic_check_delete_by_id` (the `nova.db`
layer is not under src/).  §4.2: `delete` fails with `Forbidden` for the
protected baseline check and `NotFound` when the row is absent; otherwise
the row is removed. -/
def periodic_check_delete_by_id (store : List Check) (id : Nat) :
    Except DbError (List Check) :=
  match store.find? (fun c => c.id == id) with
  | none => .error .notFound
  | some c =>
      if c.name = baselineCheckName then .error .forbidden
      else .ok (store.filter (fun c => !(c.id == id)))

/-- `Controller.show`: look the check up by id, mapping `NotFound` to HTTP
404 and rendering the row otherwise. -/
def Controller.show (store : List Check) (id : Nat) : HttpResponse :=
  match periodic_check_get_by_id store id with
  | .ok c => .okCheck c
  | .error .notFound => .notFound
  | .error e => .uncaught e

/-- `Controller.delete`: fetch the row by id, delete it by id (the adapter
source-file removal and the scheduler RPC notification are out of scope),
mapping `NotFound` to HTTP 404 and `Forbidden` to HTTP 403; on success the
response is HTTP 204.  Returns the store after the call together with the
response. -/
def Controller.delete (store : List Check) (id : Nat) :
    List Check × HttpResponse :=
  match periodic_check_get_by_id store id with
  | .error .notFound => (store, .notFound)
  | .error .forbidden => (store, .forbidden)
  | .error e => (store, .uncaught e)
  | .ok _ =>
      match periodic_check_delete_by_id store id with
      | .error .notFound => (store, .notFound)
      | .error .forbidden => (store, .forbidden)
      | .error e => (store, .uncaught e)
      | .ok store' => (store', .noContent)

/-- `Controller.create`: decode and write the adapter code file (out of
scope — it is not the check store), create the row through the db layer,
re-read it by name and render it; `exception.Invalid` is caught and mapped
to HTTP 400, other db errors propagate.  Returns the store after the call
together with the response. -/
def Controller.create (store : List Check) (name desc : String)
    (spacing : Int) (timeout : Nat) : List Check × HttpResponse :=
  match periodic_check_create store name desc spacing timeout with
  | .error .invalid => (store, .badRequest)
  | .error e => (store, .uncaught e)
  | .ok store' =>
      match periodic_check_get store' name with
      | some c => (store', .okCheck c)
      | none => (store', .uncaught .notFound)

example :
    run_check_and_store_result
      { compute_nodes := [("h1", { trust_lvl := .pyStr "unknown", vtime := 0 })],
        cache_spacing := [("A", (0 : Int))], periodic_tasks_running := true,
        spacing := 10 }
      100 "h1"
      { id := 1, name := "A", desc := "d", spacing := 60, timeout := 10 }
      { name := "A", behavior := fun _ => .completes 1 (.pyStr "trusted") "on" } =
    some
      ({ compute_nodes := [("h1", { trust_lvl := .pyStr "trusted", vtime := 100 })],
         cache_spacing := [("A", (0 : Int))], periodic_tasks_running := true,
         spacing := 10 },
       { check_id := 1, check_name := "A", time := 100, node := "h1",
         result := .pyStr "trusted", status := "on" }) := by
  decide

/-! Association-list lemmas shared by the theorems below. -/

theorem lookupS_setS_self {α : Type} (l : List (String × α)) (k : String) (v : α) :
    lookupS (setS l k v) k = some v := by
  induction l with
  | nil => simp [setS, lookupS]
  | cons p rest ih =>
      obtain ⟨k', v'⟩ := p
      by_cases h : k' = k
      · simp [setS, h, lookupS]
      · simp [setS, h, lookupS, ih]

theorem lookupS_setS_ne {α : Type} (l : List (String × α)) (k k' : String) (v : α)
    (h : k' ≠ k) : lookupS (setS l k' v) k = lookupS l k := by
  induction l with
  | nil => simp [setS, lookupS, h]
  | cons p rest ih =>
      obtain ⟨k'', v''⟩ := p
      by_cases h2 : k'' = k'
      · subst h2; simp [setS, lookupS, h]
      · by_cases h3 : k'' = k
        · subst h3; simp [setS, h2, lookupS]
        · simp [setS, h2, h3, lookupS, ih]

theorem isSome_lookupS_setS {α : Type} (l : List (String × α)) (k k' : String)
    (v : α) (h : (lookupS l k).isSome) : (lookupS (setS l k' v) k).isSome := by
  by_cases hk : k' = k
  · subst hk; rw [lookupS_setS_self]; rfl
  · rw [lookupS_setS_ne _ _ _ _ hk]; exact h

theorem periodic_check_get_name (db : List Check) (n : String) (c : Check)
    (h : periodic_check_get db n = some c) : c.name = n := by
  unfold periodic_check_get at h
  have hp := List.find?_some h
  exact eq_of_beq hp

/-! Concrete fixtures used by the evaluation theorems: a one-shot trusted
adapter, a hanging adapter, a faulting adapter, and the check row the
scheduler resolves them to. -/

def checkA : Check :=
  { id := 1, name := "A", desc := "attestation", spacing := 60, timeout := 10 }

def dbA : List Check := [checkA]

def advTrusted : Adapter :=
  { name := "A", behavior := fun _ => .completes 1 (.pyStr "trusted") "on" }

def advHangs : Adapter :=
  { name := "A", behavior := fun _ => .hangs }

def advRaises : Adapter :=
  { name := "A", behavior := fun _ => .raises }

def stateOneNode : PeriodicChecks :=
  { compute_nodes := [("h1", initEntry)], cache_spacing := [("A", 60)],
    periodic_tasks_running := true, spacing := 10 }

def stateDisabledDue : PeriodicChecks :=
  { compute_nodes := [("h1", initEntry)], cache_spacing := [("A", 60)],
    periodic_tasks_running := false, spacing := 10 }

def stateTwoNodes : PeriodicChecks :=
  { compute_nodes := [("h1", initEntry), ("h2", initEntry)],
    cache_spacing := [("A", 60)],
    periodic_tasks_running := true, spacing := 10 }

/-- C1: refuted on the code — for a check with `timeout = 10 > 0` and an
adapter evaluation that never completes, the stored record does report
status `timeout`, but the node's cached trust level is not left untouched:
`run_check_and_store_result` unconditionally writes
`compute_nodes[host] = {'trust_lvl': check_thread.result, ...}`, and on a
timeout `check_thread.result` is still the thread's placeholder `False`, so
the cached level changes from `'unknown'` to `False`. -/
theorem timeout_overwrites_trust_cache :
    run_check_and_store_result stateOneNode 100 "h1" checkA advHangs =
      some
        ({ compute_nodes := [("h1", { trust_lvl := .pyBool false, vtime := 100 })],
           cache_spacing := [("A", 60)], periodic_tasks_running := true,
           spacing := 10 },
         { check_id := 1, check_name := "A", time := 100, node := "h1",
           result := .pyBool false, status := "timeout" }) ∧
    lookupS stateOneNode.compute_nodes "h1" = some initEntry ∧
    initEntry.trust_lvl ≠ PyVal.pyBool false := by
  decide

/-- C2: refuted on the code — with the periodic flag disabled
(`is_periodic_check_enabled` returns `false`), a tick is not a no-op: the
guard `if self.is_periodic_check_enabled:` tests the truthiness of the
bound method object instead of calling it, so `run_checks` dispatches the
due check on node `h1` and stores a `CheckResultRecord` anyway. -/
theorem run_checks_disabled_still_dispatches :
    is_periodic_check_enabled stateDisabledDue = false ∧
    run_checks stateDisabledDue dbA [advTrusted] 100 =
      some
        ({ compute_nodes := [("h1", { trust_lvl := .pyStr "trusted", vtime := 100 })],
           cache_spacing := [("A", 0)], periodic_tasks_running := false,
           spacing := 10 },
         [{ check_id := 1, check_name := "A", time := 100, node := "h1",
            result := .pyStr "trusted", status := "on" }]) := by
  decide

/-- C3: refuted on the code — with two nodes `h1, h2` and check `A` due
(elapsed counter `60 ≥ spacing 60`) the tick dispatches only `(A, h1)`:
the elapsed counter is incremented by the tick spacing once per host inside
the node loop and is reset at the host where it crosses the threshold, so
`h2` is skipped (its cache entry stays `initEntry`, no record for it) and
the counter ends at `10` after two increments instead of being advanced
once per tick. -/
theorem run_checks_skips_due_second_node :
    run_checks stateTwoNodes dbA [advTrusted] 100 =
      some
        ({ compute_nodes := [("h1", { trust_lvl := .pyStr "trusted", vtime := 100 }),
                            ("h2", initEntry)],
           cache_spacing := [("A", 10)], periodic_tasks_running := true,
           spacing := 10 },
         [{ check_id := 1, check_name := "A", time := 100, node := "h1",
            result := .pyStr "trusted", status := "on" }]) ∧
    lookupS stateTwoNodes.cache_spacing "A" = some 60 ∧
    (60 : Int) ≥ checkA.spacing := by
  decide

/-- C4 counterexample: for an adapter evaluation that raises an internal
fault, the stored record's status is the thread's placeholder `"timeout"`,
not `"error"` (no `error` status exists in the code), and the cached trust
level is overwritten with the placeholder `False` rather than left
unchanged. -/
theorem adapter_fault_status_not_error :
    run_check_and_store_result stateOneNode 100 "h1" checkA advRaises =
      some
        ({ compute_nodes := [("h1", { trust_lvl := .pyBool false, vtime := 100 })],
           cache_spacing := [("A", 60)], periodic_tasks_running := true,
           spacing := 10 },
         { check_id := 1, check_name := "A", time := 100, node := "h1",
           result := .pyBool false, status := "timeout" }) ∧
    ¬ ("timeout" = "error") ∧
    lookupS stateOneNode.compute_nodes "h1" = some initEntry ∧
    initEntry ≠ { trust_lvl := PyVal.pyBool false, vtime := 100 } := by
  decide

/-- The cache entry written when an execution ends with the `CheckThread`'s
placeholder fields (fault or timeout): trust level `False`, verdict time
`now`. -/
def placeholderEntry (now : Nat) : NodeTrust :=
  { trust_lvl := .pyBool false, vtime := now }

/-- The record stored when an execution ends with the `CheckThread`'s
placeholder fields. -/
def placeholderRecord (check : Check) (host : String) (now : Nat) : CheckResult :=
  { check_id := check.id, check_name := check.name, time := now,
    node := host, result := .pyBool false, status := "timeout" }

/-- C4 amended: for every execution in which the adapter's evaluation
raises an internal fault, the recorded `CheckResultRecord` has status
`timeout` (the `CheckThread`'s placeholder — the code has no `error`
status), the node's cached trust level is overwritten with the placeholder
result `False`, and `run_check_and_store_result` returns normally (`some`),
so the scheduling loop continues to the next due item instead of halting. -/
theorem adapter_fault_records_timeout (s : PeriodicChecks) (now : Nat)
    (host : String) (check : Check) (a : Adapter) (e : NodeTrust)
    (hfault : a.behavior host = .raises)
    (hhost : lookupS s.compute_nodes host = some e) :
    run_check_and_store_result s now host check a =
      some ({ s with compute_nodes := setS s.compute_nodes host (placeholderEntry now) },
            placeholderRecord check host now) := by
  unfold run_check_and_store_result
  rw [hfault, hhost]
  rfl

/-- Concrete instantiation of `adapter_fault_records_timeout` at node `h1`
and the faulting adapter. -/
theorem adapter_fault_records_timeout_witness :
    run_check_and_store_result stateOneNode 100 "h1" checkA advRaises =
      some ({ stateOneNode with
                compute_nodes := setS stateOneNode.compute_nodes "h1" (placeholderEntry 100) },
            placeholderRecord checkA "h1" 100) :=
  adapter_fault_records_timeout stateOneNode 100 "h1" checkA advRaises
    initEntry rfl rfl

/-- C5: for every create request whose check definition has spacing ≤ 0,
`Controller.create` answers HTTP 400 (`InvalidArgument` surfaced as
`HTTPBadRequest`) and returns the store unchanged: no `CheckDefinition` is
persisted by the failed call. -/
theorem create_invalid_spacing_rejected (store : List Check)
    (name desc : String) (spacing : Int) (timeout : Nat)
    (h : spacing ≤ 0) :
    Controller.create store name desc spacing timeout =
      (store, HttpResponse.badRequest) := by
  unfold Controller.create periodic_check_create
  simp [h]

/-- Concrete instantiation of `create_invalid_spacing_rejected`: creating a
check with spacing `0` over a one-row store fails with 400 and leaves the
store as it was. -/
theorem create_invalid_spacing_rejected_witness :
    Controller.create dbA "B" "other" 0 10 = (dbA, HttpResponse.badRequest) :=
  create_invalid_spacing_rejected dbA "B" "other" 0 10 (by decide)

/-- C10: `get_trusted_pool` answers `None` (not an empty or stale mapping)
exactly when the periodic flag is off, and the full per-node trust mapping
when it is on. -/
theorem get_trusted_pool_disabled_none (s : PeriodicChecks) :
    (is_periodic_check_enabled s = false → get_trusted_pool s = none) ∧
    (is_periodic_check_enabled s = true →
      get_trusted_pool s = some s.compute_nodes) := by
  unfold get_trusted_pool is_periodic_check_enabled
  constructor <;> intro h <;> simp [h]

/-- Concrete instantiation of `get_trusted_pool_disabled_none` at a
disabled state with a nonempty cache and at an enabled state. -/
theorem get_trusted_pool_disabled_none_witness :
    get_trusted_pool stateDisabledDue = none ∧
    get_trusted_pool stateOneNode = some stateOneNode.compute_nodes :=
  ⟨(get_trusted_pool_disabled_none stateDisabledDue).1 rfl,
   (get_trusted_pool_disabled_none stateOneNode).2 rfl⟩

/-- Folding `_init_cache_entry` over a host list makes every folded host
(and every host already carrying the initial entry) map to `initEntry`. -/
theorem foldl_init_lookup :
    ∀ (computes : List String) (l : List (String × NodeTrust)) (h : String),
      (h ∈ computes ∨ lookupS l h = some initEntry) →
      lookupS (computes.foldl _init_cache_entry l) h = some initEntry
  | [], _, _, hyp => by
      cases hyp with
      | inl m => cases m
      | inr e => simpa using e
  | c :: cs, l, h, hyp => by
      rw [List.foldl_cons]
      apply foldl_init_lookup cs
      cases hyp with
      | inl m =>
          rcases List.mem_cons.mp m with rfl | m'
          · right
            exact lookupS_setS_self l h initEntry
          · left
            exact m'
      | inr e =>
          right
          by_cases hc : c = h
          · subst hc
            exact lookupS_setS_self l c initEntry
          · unfold _init_cache_entry
            rw [lookupS_setS_ne _ _ _ _ hc]
            exact e

/-- C8: after `initialize_trusted_pool` seeds the cache from the compute
nodes known to the database, every seeded node's entry is trust level
`'unknown'` with the epoch timestamp — the state every node has when it
first appears in the cache and before any check evaluates it. -/
theorem trust_cache_initialized_unknown_epoch (s : PeriodicChecks)
    (computes : List String) (h : String) (hmem : h ∈ computes) :
    lookupS (initialize_trusted_pool s computes).compute_nodes h =
      some initEntry := by
  unfold initialize_trusted_pool
  exact foldl_init_lookup computes s.compute_nodes h (Or.inl hmem)

/-- Concrete instantiation of `trust_cache_initialized_unknown_epoch`:
seeding an empty cache with hosts `h1, h2` leaves `h2` at
`'unknown'`/epoch. -/
theorem trust_cache_initialized_unknown_epoch_witness :
    lookupS (initialize_trusted_pool
        { compute_nodes := [], cache_spacing := [],
          periodic_tasks_running := true, spacing := 10 }
        ["h1", "h2"]).compute_nodes "h2" = some initEntry :=
  trust_cache_initialized_unknown_epoch
    { compute_nodes := [], cache_spacing := [],
      periodic_tasks_running := true, spacing := 10 }
    ["h1", "h2"] "h2" (by decide)

/-- One host's pass of the tick inner loop over a single-adapter list whose
check's counter stays strictly below its spacing after the increment: the
counter is advanced, nothing is dispatched, no record is produced. -/
theorem runChecksAdapters_single_skip (db : List Check) (now : Nat)
    (host : String) (s : PeriodicChecks) (A : Adapter) (C : Check) (e : Int)
    (hget : periodic_check_get db A.name = some C)
    (he : lookupS s.cache_spacing C.name = some e)
    (hlt : e + s.spacing < C.spacing) :
    runChecksAdapters db now host s [A] =
      some ({ s with cache_spacing := setS s.cache_spacing C.name (e + s.spacing) },
            []) := by
  have hng : ¬ (e + s.spacing ≥ C.spacing) := not_le.mpr hlt
  simp only [runChecksAdapters, hget, he, if_neg hng]

/-- Every host pass of a tick whose single check stays strictly below its
spacing for the whole tick leaves the trust cache (and every other field
except the counters) unchanged and produces no record. -/
theorem runChecksHosts_skip (db : List Check) (A : Adapter) (C : Check)
    (now : Nat) (hget : periodic_check_get db A.name = some C) :
    ∀ (hosts : List String) (s : PeriodicChecks) (e : Int),
      lookupS s.cache_spacing C.name = some e →
      0 ≤ s.spacing →
      e + (hosts.length : Int) * s.spacing < C.spacing →
      ∃ cs', runChecksHosts db [A] now s hosts =
        some ({ s with cache_spacing := cs' }, [])
  | [], s, e, _, _, _ => ⟨s.cache_spacing, rfl⟩
  | host :: rest, s, e, he, hnn, hlt => by
      have hrest : (0 : Int) ≤ (rest.length : Int) * s.spacing :=
        mul_nonneg (by positivity) hnn
      have hlen : ((host :: rest).length : Int) = (rest.length : Int) + 1 := by
        push_cast [List.length_cons]
        ring
      have hstep : e + s.spacing < C.spacing := by
        rw [hlen] at hlt
        nlinarith
      have hA := runChecksAdapters_single_skip db now host s A C e hget he hstep
      have he1 : lookupS (setS s.cache_spacing C.name (e + s.spacing)) C.name =
          some (e + s.spacing) := lookupS_setS_self s.cache_spacing C.name (e + s.spacing)
      have hlt1 : (e + s.spacing) + (rest.length : Int) * s.spacing < C.spacing := by
        rw [hlen] at hlt
        nlinarith
      obtain ⟨cs', hrec⟩ :=
        runChecksHosts_skip db A C now hget rest
          { s with cache_spacing := setS s.cache_spacing C.name (e + s.spacing) }
          (e + s.spacing) he1 hnn hlt1
      exact ⟨cs', by simp only [runChecksHosts, hA, hrec, List.nil_append]⟩

/-- C6: for every check C whose accumulated elapsed time stays strictly
below `C.spacing` throughout the tick (the counter starts at `e` and is
advanced by the tick spacing once per host, so it never reaches
`C.spacing`), the tick dispatches nothing for C: no execution, no record
stored, and the trust cache (`compute_nodes`) and every field other than
the elapsed counters unchanged. -/
theorem run_checks_below_spacing_no_dispatch (s : PeriodicChecks)
    (db : List Check) (A : Adapter) (C : Check) (now : Nat) (e : Int)
    (hget : periodic_check_get db A.name = some C)
    (he : lookupS s.cache_spacing C.name = some e)
    (htick : 0 ≤ s.spacing)
    (hlt : e + (s.compute_nodes.length : Int) * s.spacing < C.spacing) :
    ∃ cs', run_checks s db [A] now = some ({ s with cache_spacing := cs' }, []) := by
  unfold run_checks is_periodic_check_enabled_attr
  simp only [if_true]
  refine runChecksHosts_skip db A C now hget (s.compute_nodes.map Prod.fst) s e he htick ?_
  simpa using hlt

/-- Concrete instantiation of `run_checks_below_spacing_no_dispatch`: one
node, check `A` with spacing 60 and elapsed counter 0, tick spacing 10. -/
theorem run_checks_below_spacing_no_dispatch_witness :
    ∃ cs', run_checks
        { compute_nodes := [("h1", initEntry)], cache_spacing := [("A", 0)],
          periodic_tasks_running := true, spacing := 10 }
        dbA [advTrusted] 100 =
      some ({ compute_nodes := [("h1", initEntry)], cache_spacing := cs',
              periodic_tasks_running := true, spacing := 10 }, []) :=
  run_checks_below_spacing_no_dispatch
    { compute_nodes := [("h1", initEntry)], cache_spacing := [("A", 0)],
      periodic_tasks_running := true, spacing := 10 }
    dbA advTrusted checkA 100 0 (by decide) (by decide) (by decide) (by decide)

/-- A successful single execution: when the thread's join yields a result
(no hang past a missing timeout) and the host is a cache key, the executor
stores a record for exactly that (check, host) pair and touches only the
host's cache entry. -/
theorem run_check_some (s : PeriodicChecks) (now : Nat) (host : String)
    (check : Check) (a : Adapter)
    (hhost : (lookupS s.compute_nodes host).isSome)
    (hterm : (checkThreadOutcome (a.behavior host) check.timeout).isSome) :
    ∃ v rec, run_check_and_store_result s now host check a =
        some ({ s with compute_nodes := setS s.compute_nodes host v }, rec) ∧
      rec.node = host ∧ rec.check_name = check.name := by
  obtain ⟨⟨r, st⟩, hrs⟩ := Option.isSome_iff_exists.mp hterm
  obtain ⟨en, he⟩ := Option.isSome_iff_exists.mp hhost
  refine ⟨{ trust_lvl := r, vtime := now },
    { check_id := check.id, check_name := check.name, time := now,
      node := host, result := r, status := st }, ?_, rfl, rfl⟩
  unfold run_check_and_store_result
  rw [hrs, he]

/-- An adapter is runnable against the catalog: its name resolves to a
check row and its evaluation under that row's timeout always yields a
thread outcome (it never hangs on a `join()` without timeout). -/
def adapterRuns (db : List Check) (a : Adapter) : Prop :=
  ∃ c, periodic_check_get db a.name = some c ∧
    ∀ host, (checkThreadOutcome (a.behavior host) c.timeout).isSome

/-- Inner manual-run loop: with every adapter runnable and the host a cache
key, every adapter in the list is executed against the host, one record per
adapter, and cache keys are preserved. -/
theorem runSpecificAdapters_all (db : List Check) (now : Nat) (host : String) :
    ∀ (al : List Adapter) (s : PeriodicChecks),
      (lookupS s.compute_nodes host).isSome →
      (∀ a ∈ al, adapterRuns db a) →
      ∃ s2 recs, runSpecificAdapters db now host s al = some (s2, recs) ∧
        (∀ a ∈ al, ∃ r ∈ recs, r.node = host ∧ r.check_name = a.name) ∧
        (∀ k, (lookupS s.compute_nodes k).isSome →
          (lookupS s2.compute_nodes k).isSome)
  | [], s, _, _ => ⟨s, [], rfl, by simp, fun _ h => h⟩
  | a :: rest, s, hh, hal => by
      obtain ⟨c, hget, hterm⟩ := hal a (List.mem_cons_self a rest)
      obtain ⟨v, rec, hrun, hnode, hname⟩ :=
        run_check_some s now host c a hh (hterm host)
      have hpres : ∀ k, (lookupS s.compute_nodes k).isSome →
          (lookupS (setS s.compute_nodes host v) k).isSome :=
        fun k hk => isSome_lookupS_setS s.compute_nodes k host v hk
      obtain ⟨s2, recs, hrec2, hall2, hpres2⟩ :=
        runSpecificAdapters_all db now host rest
          { s with compute_nodes := setS s.compute_nodes host v }
          (hpres host hh) (fun a' ha' => hal a' (List.mem_cons_of_mem a ha'))
      refine ⟨s2, rec :: recs, ?_, ?_, ?_⟩
      · simp only [runSpecificAdapters, hget, hrun, hrec2]
      · intro a' ha'
        rcases List.mem_cons.mp ha' with h | ha''
        · subst h
          refine ⟨rec, List.mem_cons_self rec recs, hnode, ?_⟩
          rw [hname, periodic_check_get_name db a'.name c hget]
        · obtain ⟨r, hr, h1, h2⟩ := hall2 a' ha''
          exact ⟨r, List.mem_cons_of_mem rec hr, h1, h2⟩
      · intro k hk
        exact hpres2 k (hpres k hk)

/-- Outer manual-run loop: every adapter is executed against every supplied
host. -/
theorem runSpecificHosts_all (db : List Check) (al : List Adapter) (now : Nat)
    (hal : ∀ a ∈ al, adapterRuns db a) :
    ∀ (nodes : List String) (s : PeriodicChecks),
      (∀ h ∈ nodes, (lookupS s.compute_nodes h).isSome) →
      ∃ s2 recs, runSpecificHosts db al now s nodes = some (s2, recs) ∧
        ∀ h ∈ nodes, ∀ a ∈ al, ∃ r ∈ recs, r.node = h ∧ r.check_name = a.name
  | [], s, _ => ⟨s, [], rfl, by simp⟩
  | host :: rest, s, hn => by
      obtain ⟨s1, recs1, h1, hall1, hpres1⟩ :=
        runSpecificAdapters_all db now host al s
          (hn host (List.mem_cons_self host rest)) hal
      obtain ⟨s2, recs2, h2, hall2⟩ :=
        runSpecificHosts_all db al now hal rest s1
          (fun h hm => hpres1 h (hn h (List.mem_cons_of_mem host hm)))
      refine ⟨s2, recs1 ++ recs2, ?_, ?_⟩
      · simp only [runSpecificHosts, h1, h2]
      · intro h hm a ha
        rcases List.mem_cons.mp hm with hEq | hm'
        · subst hEq
          obtain ⟨r, hr, p1, p2⟩ := hall1 a ha
          exact ⟨r, List.mem_append_left recs2 hr, p1, p2⟩
        · obtain ⟨r, hr, p1, p2⟩ := hall2 h hm' a ha
          exact ⟨r, List.mem_append_right recs1 hr, p1, p2⟩

/-- C7: the manual run path executes every check in the catalog against
every caller-supplied node immediately: for any state `s` — whatever the
periodic-enabled flag holds (the guard tests the truthy bound-method
object) and whatever the elapsed counters hold (the path never reads
`cache_spacing`) — provided every supplied node is a cache key and every
adapter resolves to a check row and terminates, the call succeeds and the
stored records contain one per (node, check) pair. -/
theorem manual_run_executes_every_pair (s : PeriodicChecks) (db : List Check)
    (adapter_list : List Adapter) (now : Nat) (input_nodes : List String)
    (hnodes : ∀ h ∈ input_nodes, (lookupS s.compute_nodes h).isSome)
    (hadapters : ∀ a ∈ adapter_list, adapterRuns db a) :
    ∃ s2 recs,
      run_checks_specific_nodes s db adapter_list now input_nodes =
        some (s2, recs) ∧
      ∀ h ∈ input_nodes, ∀ a ∈ adapter_list,
        ∃ r ∈ recs, r.node = h ∧ r.check_name = a.name := by
  unfold run_checks_specific_nodes is_periodic_check_enabled_attr
  simp only [if_true]
  exact runSpecificHosts_all db adapter_list now hadapters input_nodes s hnodes

/-- Concrete instantiation of `manual_run_executes_every_pair`: a manual
run on `[h1]` while the periodic flag is off and the check's counter is far
from due still executes the check against `h1`. -/
theorem manual_run_executes_every_pair_witness :
    ∃ s2 recs,
      run_checks_specific_nodes stateDisabledDue dbA [advTrusted] 100 ["h1"] =
        some (s2, recs) ∧
      ∀ h ∈ ["h1"], ∀ a ∈ [advTrusted],
        ∃ r ∈ recs, r.node = h ∧ r.check_name = a.name :=
  manual_run_executes_every_pair stateDisabledDue dbA [advTrusted] 100 ["h1"]
    (by decide)
    (fun a ha => by
      rcases List.mem_singleton.mp ha with rfl
      exact ⟨checkA, rfl, fun host => rfl⟩)

/-- Filtering by id removes every row a subsequent find-by-id could
return. -/
theorem find_filter_id_none (store : List Check) (id : Nat) :
    (store.filter (fun c => !(c.id == id))).find? (fun c => c.id == id) =
      none := by
  rw [List.find?_eq_none]
  intro c hc
  have h2 := (List.mem_filter.mp hc).2
  simp only [Bool.not_eq_true'] at h2
  simp [h2]

/-- C9: for every delete request on an existing check: deleting the
protected baseline attestation check fails with HTTP 403 (`Forbidden`) and
the store is unchanged; deleting any other existing check succeeds with
HTTP 204, after which showing that check's id fails with HTTP 404
(`NotFound`). -/
theorem delete_baseline_forbidden_other_removed (store : List Check)
    (id : Nat) (c : Check)
    (hget : periodic_check_get_by_id store id = .ok c) :
    (c.name = baselineCheckName →
      Controller.delete store id = (store, HttpResponse.forbidden)) ∧
    (c.name ≠ baselineCheckName →
      ∃ store', Controller.delete store id = (store', HttpResponse.noContent) ∧
        Controller.show store' id = HttpResponse.notFound) := by
  have hfind : store.find? (fun x => x.id == id) = some c := by
    unfold periodic_check_get_by_id at hget
    cases h : store.find? (fun x => x.id == id) with
    | none =>
        rw [h] at hget
        exact absurd hget (by simp)
    | some c' =>
        rw [h] at hget
        simp only [Except.ok.injEq] at hget
        rw [hget]
  constructor
  · intro hbase
    unfold Controller.delete periodic_check_get_by_id periodic_check_delete_by_id
    rw [hfind]
    simp [hbase]
  · intro hother
    refine ⟨store.filter (fun x => !(x.id == id)), ?_, ?_⟩
    · unfold Controller.delete periodic_check_get_by_id periodic_check_delete_by_id
      rw [hfind]
      simp [hother]
    · unfold Controller.show periodic_check_get_by_id
      rw [find_filter_id_none]

/-- The protected baseline attestation row and one deletable row. -/
def checkOA : Check :=
  { id := 0, name := "OpenAttestation", desc := "baseline", spacing := 60,
    timeout := 10 }

def checkIntel : Check :=
  { id := 1, name := "intel_check", desc := "other", spacing := 30,
    timeout := 5 }

def storeOA : List Check := [checkOA, checkIntel]

/-- Concrete instantiation of `delete_baseline_forbidden_other_removed`:
deleting the baseline row answers 403 with the store intact; deleting the
other row answers 204 and showing it afterwards answers 404. -/
theorem delete_baseline_forbidden_other_removed_witness :
    Controller.delete storeOA 0 = (storeOA, HttpResponse.forbidden) ∧
    ∃ store', Controller.delete storeOA 1 = (store', HttpResponse.noContent) ∧
      Controller.show store' 1 = HttpResponse.notFound :=
  ⟨(delete_baseline_forbidden_other_removed storeOA 0 checkOA rfl).1 (by decide),
   (delete_baseline_forbidden_other_removed storeOA 1 checkIntel rfl).2 (by decide)⟩
